import Mathlib

/-!
Verification of the subprocess agent-run coordinator and its streaming JSONL
parser (codex/qwen adapters).  The definitions below are shallow embeddings of
`codex-stream-parser.ts`, `codex-runner.ts` and `qwen-runner.ts`:
strings are Lean `String`s (buffers held as `List Char` so that chunk
concatenation is structural), timestamps are `Nat` milliseconds, the Node
event loop is modelled as a sequence of timed actions applied one at a time,
and `setTimeout`/`clearTimeout` timers are `Option Nat` scheduled fire times.
-/

namespace AgentRun

/-- The `splice(0, length - cap)` bounding pattern used for `commands`,
`toolCalls` and `stderrTail`: if the list exceeds the cap, drop the oldest
entries so that exactly `cap` remain. -/
def capSplice (cap : Nat) (l : List α) : List α :=
  if l.length > cap then l.drop (l.length - cap) else l

theorem capSplice_length_le (cap : Nat) (l : List α) :
    (capSplice cap l).length ≤ cap := by
  unfold capSplice
  split
  · simp only [List.length_drop]
    omega
  · omega

theorem capSplice_suffix (cap : Nat) (l : List α) :
    (capSplice cap l).IsSuffix l := by
  unfold capSplice
  split
  · exact List.drop_suffix _ _
  · exact List.suffix_refl l

/-- Mutate the first element satisfying `p` in place (the JS
`array.find(...)` followed by field assignments on the found object). -/
def updateFirst (p : α → Bool) (f : α → α) : List α → List α
  | [] => []
  | x :: xs => if p x then f x :: xs else x :: updateFirst p f xs

theorem updateFirst_length (p : α → Bool) (f : α → α) (l : List α) :
    (updateFirst p f l).length = l.length := by
  induction l with
  | nil => rfl
  | cons x xs ih =>
    unfold updateFirst
    split <;> simp [ih]

/-- JS `String.prototype.split("\n")` on a character list: the list of
segments between newline characters.  Always returns at least one segment;
`splitNl [] = [[]]` just as `"".split("\n") = [""]`. -/
def splitNl : List Char → List (List Char)
  | [] => [[]]
  | c :: cs =>
    if c = '\n' then [] :: splitNl cs
    else
      match splitNl cs with
      | [] => [[c]]
      | l :: ls => (c :: l) :: ls

theorem splitNl_ne_nil (l : List Char) : splitNl l ≠ [] := by
  cases l with
  | nil => simp [splitNl]
  | cons c cs =>
    unfold splitNl
    split
    · simp
    · split <;> simp

theorem mem_splitNl_no_nl (l : List Char) :
    ∀ seg ∈ splitNl l, '\n' ∉ seg := by
  induction l with
  | nil =>
    intro seg h
    simp [splitNl] at h
    simp [h]
  | cons c cs ih =>
    intro seg h
    unfold splitNl at h
    split at h
    · rcases List.mem_cons.1 h with h1 | h1
      · simp [h1]
      · exact ih seg h1
    · rename_i hc
      rcases heq : splitNl cs with _ | ⟨l0, ls⟩
      · exact absurd heq (splitNl_ne_nil cs)
      · rw [heq] at h
        rcases List.mem_cons.1 h with h1 | h1
        · subst h1
          intro hmem
          rcases List.mem_cons.1 hmem with h2 | h2
          · exact hc h2.symm
          · exact ih l0 (heq ▸ List.mem_cons_self l0 ls) h2
        · exact ih seg (heq ▸ List.mem_cons.2 (Or.inr h1))

/-- Last element with a default (the `lines.pop() ?? ""` of the source: the
trailing, possibly incomplete, segment kept in the buffer). -/
def lastD (l : List α) (d : α) : α :=
  match l with
  | [] => d
  | [x] => x
  | _ :: y :: ys => lastD (y :: ys) d

theorem lastD_cons_of_ne_nil (x : α) (l : List α) (d : α) (h : l ≠ []) :
    lastD (x :: l) d = lastD l d := by
  cases l with
  | nil => exact absurd rfl h
  | cons y ys => rfl

theorem lastD_mem (l : List α) (d : α) (h : l ≠ []) : lastD l d ∈ l := by
  induction l with
  | nil => exact absurd rfl h
  | cons x xs ih =>
    cases xs with
    | nil => simp [lastD]
    | cons y ys =>
      rw [lastD_cons_of_ne_nil x (y :: ys) d (by simp)]
      exact List.mem_cons.2 (Or.inr (ih (by simp)))

theorem dropLast_cons_of_ne_nil (x : α) (l : List α) (h : l ≠ []) :
    (x :: l).dropLast = x :: l.dropLast := by
  cases l with
  | nil => exact absurd rfl h
  | cons y ys => rfl

theorem splitNl_cons_ne (c : Char) (cs : List Char) (hc : ¬c = '\n')
    (m : List Char) (ms : List (List Char)) (h : splitNl cs = m :: ms) :
    splitNl (c :: cs) = (c :: m) :: ms := by
  unfold splitNl
  rw [if_neg hc, h]

/-- Splitting a concatenation: the complete lines of `a` are unchanged, and
the trailing partial segment of `a` is prepended to `b` before splitting the
rest.  This is the structural fact behind chunk-boundary safety. -/
theorem splitNl_append (a b : List Char) :
    splitNl (a ++ b) =
      (splitNl a).dropLast ++ splitNl (lastD (splitNl a) [] ++ b) := by
  induction a with
  | nil => simp [splitNl, lastD]
  | cons c cs ih =>
    by_cases hc : c = '\n'
    · subst hc
      have hne := splitNl_ne_nil cs
      rw [List.cons_append]
      rw [show splitNl ('\n' :: (cs ++ b)) = [] :: splitNl (cs ++ b) from by
            simp [splitNl]]
      rw [show splitNl ('\n' :: cs) = [] :: splitNl cs from by simp [splitNl]]
      rw [dropLast_cons_of_ne_nil _ _ hne, lastD_cons_of_ne_nil _ _ _ hne]
      rw [ih]
      rfl
    · rcases heq : splitNl cs with _ | ⟨l0, ls⟩
      · exact absurd heq (splitNl_ne_nil cs)
      · have hsplit_a : splitNl (c :: cs) = (c :: l0) :: ls :=
          splitNl_cons_ne c cs hc l0 ls heq
        rw [List.cons_append, hsplit_a]
        cases ls with
        | nil =>
          -- splitNl cs = [l0]: the whole of cs is the trailing segment
          rcases hlb : splitNl (l0 ++ b) with _ | ⟨m, ms⟩
          · exact absurd hlb (splitNl_ne_nil _)
          · have h1 : splitNl (cs ++ b) = m :: ms := by
              rw [ih, heq]
              simpa [lastD] using hlb
            rw [splitNl_cons_ne c (cs ++ b) hc m ms h1]
            have h2 : splitNl ((c :: l0) ++ b) = (c :: m) :: ms := by
              rw [List.cons_append]
              exact splitNl_cons_ne c (l0 ++ b) hc m ms hlb
            simp only [List.dropLast_single, List.nil_append, lastD, h2]
        | cons l1 ls' =>
          have hne : (l1 :: ls' : List (List Char)) ≠ [] := by simp
          have h1 : splitNl (cs ++ b) =
              l0 :: (l1 :: ls').dropLast ++ splitNl (lastD (l1 :: ls') [] ++ b) := by
            rw [ih, heq]
            rw [dropLast_cons_of_ne_nil _ _ hne, lastD_cons_of_ne_nil _ _ _ hne]
          rw [splitNl_cons_ne c (cs ++ b) hc _ _ h1]
          rw [dropLast_cons_of_ne_nil _ _ hne, lastD_cons_of_ne_nil _ _ _ hne]
          rfl

/-- Modelled from the spec: the JSON values produced by the host platform's
`JSON.parse` builtin, which is not part of this repository ("newline-delimited
JSON objects, each with a discriminator field").  Numbers are restricted to
integers; every theorem that depends on a parse result is conditioned on it,
so the restriction never decides a claim. -/
inductive Json where
  | null : Json
  | bool : Bool → Json
  | num : Int → Json
  | str : String → Json
  | arr : List Json → Json
  | obj : List (String × Json) → Json
deriving Repr

/-- JS property lookup `json.key` on a parsed value: only objects have
fields; on anything else the result is `undefined` (`none`). -/
def Json.getField : Json → String → Option Json
  | .obj fields, k => (fields.find? (fun f => f.1 = k)).map (fun f => f.2)
  | _, _ => none

/-- The JS test `typeof json === "object" && json !== null`: true exactly for
objects and arrays (JS arrays have typeof "object"). -/
def Json.isObjLike : Json → Bool
  | .obj _ => true
  | .arr _ => true
  | _ => false

/-- The conditional `typeof x === "string" ? x : ...` pattern on a possibly
absent field. -/
def jsAsString : Option Json → Option String
  | some (.str s) => some s
  | _ => none

/-- The conditional `typeof x === "number" ? x : undefined` pattern. -/
def jsAsNum : Option Json → Option Int
  | some (.num n) => some n
  | _ => none

def escapeStringChar (c : Char) : String :=
  if c = '"' then "\\\""
  else if c = '\\' then "\\\\"
  else if c = '\n' then "\\n"
  else if c = '\t' then "\\t"
  else if c = '\r' then "\\r"
  else String.singleton c

def quoteJsonString (s : String) : String :=
  "\"" ++ String.join (s.data.map escapeStringChar) ++ "\""

mutual
/-- Modelled from the spec: the host `JSON.stringify` builtin (used by the
parsers to re-serialize unrecognized objects into raw events), not part of
this repository. -/
def jsonStringify : Json → String
  | .null => "null"
  | .bool true => "true"
  | .bool false => "false"
  | .num n => toString n
  | .str s => quoteJsonString s
  | .arr es => "[" ++ stringifyArr es ++ "]"
  | .obj fs => "\x7b" ++ stringifyObj fs ++ "\x7d"

def stringifyArr : List Json → String
  | [] => ""
  | [e] => jsonStringify e
  | e :: e' :: es => jsonStringify e ++ "," ++ stringifyArr (e' :: es)

def stringifyObj : List (String × Json) → String
  | [] => ""
  | [(k, v)] => quoteJsonString k ++ ":" ++ jsonStringify v
  | (k, v) :: f :: fs =>
    quoteJsonString k ++ ":" ++ jsonStringify v ++ "," ++ stringifyObj (f :: fs)
end

def isWsChar (c : Char) : Bool :=
  c = ' ' || c = '\t' || c = '\n' || c = '\r'

/-- JS `String.prototype.trim()` (the core whitespace characters). -/
def jsTrim (s : String) : String :=
  String.mk (((s.data.dropWhile isWsChar).reverse.dropWhile isWsChar).reverse)

def skipWs : List Char → List Char
  | [] => []
  | c :: cs => if isWsChar c then skipWs cs else c :: cs

/-- Longest leading run of ASCII digits and the remainder. -/
def takeDigits : List Char → List Char × List Char
  | [] => ([], [])
  | c :: cs =>
    if c.isDigit then
      let (d, r) := takeDigits cs
      (c :: d, r)
    else ([], c :: cs)

def digitsToNat (ds : List Char) : Nat :=
  ds.foldl (fun a c => a * 10 + (c.toNat - 48)) 0

/-- JSON string-literal body after the opening quote; supports the common
escapes.  Fuel-indexed so the recursion is structural. -/
def parseStringBody : Nat → List Char → Option (String × List Char)
  | 0, _ => none
  | _ + 1, [] => none
  | fuel + 1, c :: cs =>
    if c = '"' then some ("", cs)
    else if c = '\\' then
      match cs with
      | [] => none
      | e :: cs2 =>
        let ec : Option Char :=
          if e = '"' then some '"'
          else if e = '\\' then some '\\'
          else if e = '/' then some '/'
          else if e = 'n' then some '\n'
          else if e = 't' then some '\t'
          else if e = 'r' then some '\r'
          else none
        match ec with
        | none => none
        | some ch =>
          (parseStringBody fuel cs2).map (fun p => (String.mk (ch :: p.1.data), p.2))
    else (parseStringBody fuel cs).map (fun p => (String.mk (c :: p.1.data), p.2))

mutual
/-- Modelled from the spec: the host `JSON.parse` builtin ("attempts to decode
each complete line as one JSON value"), not part of this repository.
Recursive-descent with fuel; returns the parsed value and unconsumed input. -/
def parseVal : Nat → List Char → Option (Json × List Char)
  | 0, _ => none
  | fuel + 1, input =>
    match skipWs input with
    | [] => none
    | c :: cs =>
      if c = 'n' then
        if ['u', 'l', 'l'].isPrefixOf cs then some (.null, cs.drop 3) else none
      else if c = 't' then
        if ['r', 'u', 'e'].isPrefixOf cs then some (.bool true, cs.drop 3) else none
      else if c = 'f' then
        if ['a', 'l', 's', 'e'].isPrefixOf cs then some (.bool false, cs.drop 4)
        else none
      else if c = '"' then
        (parseStringBody fuel cs).map (fun p => (.str p.1, p.2))
      else if c = '-' then
        match takeDigits cs with
        | ([], _) => none
        | (ds, r) => some (.num (-(digitsToNat ds : Int)), r)
      else if c.isDigit then
        match takeDigits (c :: cs) with
        | ([], _) => none
        | (ds, r) => some (.num (digitsToNat ds), r)
      else if c = '[' then
        match skipWs cs with
        | ']' :: r => some (.arr [], r)
        | rest => (parseArrItems fuel rest).map (fun p => (.arr p.1, p.2))
      else if c = Char.ofNat 123 then
        match skipWs cs with
        | c' :: r =>
          if c' = Char.ofNat 125 then some (.obj [], r)
          else (parseObjItems fuel (c' :: r)).map (fun p => (.obj p.1, p.2))
        | [] => none
      else none

def parseArrItems : Nat → List Char → Option (List Json × List Char)
  | 0, _ => none
  | fuel + 1, input =>
    match parseVal fuel input with
    | none => none
    | some (v, r) =>
      match skipWs r with
      | ',' :: r2 => (parseArrItems fuel r2).map (fun p => (v :: p.1, p.2))
      | ']' :: r2 => some ([v], r2)
      | _ => none

def parseObjItems : Nat → List Char → Option (List (String × Json) × List Char)
  | 0, _ => none
  | fuel + 1, input =>
    match skipWs input with
    | '"' :: cs =>
      match parseStringBody fuel cs with
      | none => none
      | some (k, r) =>
        match skipWs r with
        | ':' :: r2 =>
          match parseVal fuel r2 with
          | none => none
          | some (v, r3) =>
            match skipWs r3 with
            | ',' :: r4 => (parseObjItems fuel r4).map (fun p => ((k, v) :: p.1, p.2))
            | c2 :: r4 => if c2 = Char.ofNat 125 then some ([(k, v)], r4) else none
            | [] => none
        | _ => none
    | _ => none
end

/-- Modelled from the spec: `JSON.parse` as applied to one full line — the
value must consume the entire line (up to trailing whitespace) or the parse
throws, which the callers turn into a raw event. -/
def jsonParse (s : String) : Option Json :=
  match parseVal (2 * s.data.length + 2) s.data with
  | some (j, rest) => if skipWs rest = [] then some j else none
  | none => none

structure TokenUsage where
  inputTokens : Option Int
  outputTokens : Option Int
  totalTokens : Option Int
deriving Repr, DecidableEq

/-- Normalized event types from Codex `exec --json` JSONL output
(`codex-stream-parser.ts`). -/
inductive CodexEvent where
  | thread_started (threadId : String)
  | turn_started
  | agent_message (text : String) (isComplete : Bool)
  | reasoning (text : String)
  | command_execution (id : Option String) (command : String)
      (exitCode : Option Int) (status : String)
  | turn_completed (usage : Option TokenUsage)
  | error (message : String)
  | raw_text (text : String)
deriving Repr, DecidableEq

/-- `CodexStreamParser.normalizeEvent`: maps a parsed JSON object (or array)
to a normalized event; unknown discriminators fall through to `raw_text` with
the re-serialized JSON. -/
def normalizeEvent (j : Json) : CodexEvent :=
  let type? := jsAsString (j.getField "type")
  if type? = some "thread.started" then
    .thread_started ((jsAsString (j.getField "thread_id")).getD "")
  else if type? = some "turn.started" then
    .turn_started
  else if type? = some "item.started" || type? = some "item.completed" then
    -- `const item = json.item ?? json`
    let item :=
      match j.getField "item" with
      | some .null => j
      | some v => v
      | none => j
    let itemType? := jsAsString (item.getField "type")
    if itemType? = some "agent_message" then
      .agent_message ((jsAsString (item.getField "text")).getD "")
        (type? = some "item.completed")
    else if itemType? = some "reasoning" then
      .reasoning ((jsAsString (item.getField "text")).getD "")
    else if itemType? = some "command_execution" then
      .command_execution (jsAsString (item.getField "id"))
        ((jsAsString (item.getField "command")).getD "")
        (jsAsNum (item.getField "exit_code"))
        ((jsAsString (item.getField "status")).getD
          (if type? = some "item.completed" then "completed" else "running"))
    else .raw_text (jsonStringify j)
  else if type? = some "turn.completed" then
    -- `usage && typeof usage === "object"`
    let usage :=
      match j.getField "usage" with
      | some u =>
        if u.isObjLike then
          some { inputTokens := jsAsNum (u.getField "input_tokens"),
                 outputTokens := jsAsNum (u.getField "output_tokens"),
                 totalTokens := jsAsNum (u.getField "total_tokens") : TokenUsage }
        else none
      | none => none
    .turn_completed usage
  else if type? = some "error" then
    .error ((jsAsString (j.getField "message")).getD (jsonStringify j))
  else .raw_text (jsonStringify j)

/-- `CodexStreamParser.parseLine`: a line that fails `JSON.parse`, or parses
to a non-object (`typeof json !== "object" || json === null`), becomes a
`raw_text` event carrying the line; otherwise it is normalized. -/
def parseLine (line : String) : Option CodexEvent :=
  match jsonParse line with
  | none => some (.raw_text line)
  | some j => if j.isObjLike then some (normalizeEvent j) else some (.raw_text line)

/-- The per-line body of the `feed` loop: `line.trim()` is checked for
emptiness (`if (!trimmed) continue`) and then handed to `parseLine`. -/
def lineToEvent (line : List Char) : Option CodexEvent :=
  let trimmed := jsTrim (String.mk line)
  if trimmed = "" then none else parseLine trimmed

/-- `CodexStreamParser`: the internal text buffer holding the trailing
partial line between `feed` calls. -/
structure CodexStreamParser where
  buffer : List Char

/-- `CodexStreamParser.feed`: append the chunk to the buffer, split on
newlines, keep the last (possibly incomplete) segment as the new buffer, and
turn every complete line into at most one event. -/
def CodexStreamParser.feed (p : CodexStreamParser) (chunk : String) :
    CodexStreamParser × List CodexEvent :=
  let parts := splitNl (p.buffer ++ chunk.data)
  (⟨lastD parts []⟩, parts.dropLast.filterMap lineToEvent)

/-- `CodexStreamParser.flush`: process the remaining buffer content as a
final line (nothing on a whitespace-only buffer) and clear the buffer. -/
def CodexStreamParser.flush (p : CodexStreamParser) :
    CodexStreamParser × List CodexEvent :=
  let rest := jsTrim (String.mk p.buffer)
  (⟨[]⟩, if rest = "" then [] else (parseLine rest).toList)

/-- Feeding a list of chunks in order, accumulating all returned events. -/
def feedAll (p : CodexStreamParser) : List String → CodexStreamParser × List CodexEvent
  | [] => (p, [])
  | c :: cs =>
    let r1 := p.feed c
    let r2 := feedAll r1.1 cs
    (r2.1, r1.2 ++ r2.2)

/-- The full event sequence of a run: feed every chunk, then `flush()`. -/
def feedThenFlush (chunks : List String) : List CodexEvent :=
  let r := feedAll ⟨[]⟩ chunks
  r.2 ++ r.1.flush.2

theorem buffer_no_nl (p : CodexStreamParser) (chunk : String) :
    '\n' ∉ (p.feed chunk).1.buffer := by
  unfold CodexStreamParser.feed
  exact mem_splitNl_no_nl _ _ (lastD_mem _ _ (splitNl_ne_nil _))

theorem splitNl_of_no_nl (l : List Char) (h : '\n' ∉ l) : splitNl l = [l] := by
  induction l with
  | nil => rfl
  | cons c cs ih =>
    have hc : ¬c = '\n' := fun hc => h (hc ▸ List.mem_cons_self c cs)
    have hcs : '\n' ∉ cs := fun hm => h (List.mem_cons.2 (Or.inr hm))
    exact splitNl_cons_ne c cs hc cs [] (ih hcs)

theorem data_append (s t : String) : (s ++ t).data = s.data ++ t.data := rfl

theorem lastD_append_of_ne_nil (xs ys : List α) (d : α) (h : ys ≠ []) :
    lastD (xs ++ ys) d = lastD ys d := by
  induction xs with
  | nil => rfl
  | cons x xs ih =>
    have hne : xs ++ ys ≠ [] := by
      intro hc
      exact h (List.append_eq_nil.1 hc).2
    rw [List.cons_append, lastD_cons_of_ne_nil x (xs ++ ys) d hne, ih]

theorem dropLast_append_of_ne_nil (xs ys : List α) (h : ys ≠ []) :
    (xs ++ ys).dropLast = xs ++ ys.dropLast := by
  induction xs with
  | nil => rfl
  | cons x xs ih =>
    have hne : xs ++ ys ≠ [] := by
      intro hc
      exact h (List.append_eq_nil.1 hc).2
    rw [List.cons_append, dropLast_cons_of_ne_nil x (xs ++ ys) hne, ih,
      List.cons_append]

/-- One `feed` of a concatenation equals two consecutive `feed`s: the parser
state agrees and the event lists concatenate. -/
theorem feed_feed (p : CodexStreamParser) (a b : String) :
    ((p.feed a).1.feed b).1 = (p.feed (a ++ b)).1 ∧
      (p.feed a).2 ++ ((p.feed a).1.feed b).2 = (p.feed (a ++ b)).2 := by
  unfold CodexStreamParser.feed
  simp only [data_append]
  rw [show p.buffer ++ (a.data ++ b.data) = (p.buffer ++ a.data) ++ b.data from
        (List.append_assoc _ _ _).symm]
  rw [splitNl_append (p.buffer ++ a.data) b.data]
  have hne := splitNl_ne_nil (lastD (splitNl (p.buffer ++ a.data)) [] ++ b.data)
  constructor
  · congr 1
    rw [lastD_append_of_ne_nil _ _ _ hne]
  · rw [dropLast_append_of_ne_nil _ _ hne, List.filterMap_append]

/-! ### The run coordinator (`codex-runner.ts`) -/

inductive CodexStatus where
  | running | done | error | aborted
deriving Repr, DecidableEq

/-- One tool/command invocation record. -/
structure CodexCommand where
  command : String
  exitCode : Option Int
  status : String
  startedAt : Nat
  endedAt : Option Nat
deriving Repr, DecidableEq

/-- `CodexRunState`: the single mutable aggregate per run. -/
structure CodexRunState where
  status : CodexStatus
  threadId : Option String
  lastAssistantMessage : String
  commands : List CodexCommand
  stderrTail : List String
  error : Option String
  usage : Option TokenUsage
  startedAt : Nat
  endedAt : Option Nat
deriving Repr, DecidableEq

def MAX_COMMANDS : Nat := 80
def MAX_STDERR_LINES : Nat := 20
def THROTTLE_MS : Nat := 150

/-- The per-event body of `handleEvents`' switch, with `Date.now()` passed as
`now`. -/
def applyEvent (now : Nat) (st : CodexRunState) : CodexEvent → CodexRunState
  | .thread_started tid => { st with threadId := some tid }
  | .turn_started => st
  | .agent_message text _ =>
    if text ≠ "" then { st with lastAssistantMessage := text } else st
  | .reasoning _ => st
  | .command_execution _ cmd exitCode status =>
    if st.commands.any (fun c => c.command == cmd && c.status == "running") then
      { st with commands :=
          (updateFirst (fun c => c.command == cmd && c.status == "running")
            (fun c => { c with exitCode := exitCode, status := status,
                               endedAt := some now })
            st.commands) }
    else
      { st with commands :=
          (capSplice MAX_COMMANDS
            (st.commands ++ [{ command := cmd, exitCode := exitCode,
                               status := status, startedAt := now,
                               endedAt := none : CodexCommand }])) }
  | .turn_completed usage =>
    match usage with
    | some u => { st with usage := some u }
    | none => st
  | .error msg => { st with error := some msg }
  | .raw_text text =>
    { st with stderrTail := capSplice MAX_STDERR_LINES (st.stderrTail ++ [text]) }

/-- The full closure state of one `runCodexAgent` invocation after spawn: the
run state plus the parser buffer, throttle bookkeeping, both timers
(`Option` scheduled fire time), listener registration, and resolution flag.
The ghost fields (`emissions`, `emitAfterResolve`, `endedAtWrites`,
`killArms`, `sigterms`, `sigkills`, `signalFired`, `abortHandled`) record the
observable history: every `onUpdate` snapshot, callback invocations after
promise resolution, assignments to `endedAt`, and signals sent to the
process. -/
structure RunnerState where
  state : CodexRunState
  parserBuf : List Char
  lastUpdateTime : Nat
  updateTimer : Option Nat
  killTimer : Option Nat
  listenerActive : Bool
  signalFired : Bool
  abortHandled : Bool
  procExited : Bool
  resolved : Bool
  emissions : List (Nat × CodexRunState)
  emitAfterResolve : Nat
  endedAtWrites : Nat
  killArms : Nat
  sigterms : Nat
  sigkills : Nat
deriving Repr, DecidableEq

/-- `onUpdate?.({...state})`: hand a defensive copy of the current run state
to the caller, recorded with its emission time. -/
def emitUpdate (s : RunnerState) (now : Nat) : RunnerState :=
  { s with emissions := s.emissions ++ [(now, s.state)],
           emitAfterResolve :=
             s.emitAfterResolve + (if s.resolved then 1 else 0) }

/-- `throttledUpdate`: emit immediately if the throttle interval has elapsed
(also clearing any pending deferred emission), otherwise schedule one
deferred emission for when it will have elapsed (coalescing). -/
def throttledUpdate (s : RunnerState) (now : Nat) : RunnerState :=
  if now - s.lastUpdateTime < THROTTLE_MS then
    match s.updateTimer with
    | none =>
      { s with updateTimer := some (now + (THROTTLE_MS - (now - s.lastUpdateTime))) }
    | some _ => s
  else
    emitUpdate { s with lastUpdateTime := now, updateTimer := none } now

/-- `handleEvents`: fold the event batch into the run state, then call
`throttledUpdate` (the source calls it unconditionally at the end of the
handler). -/
def handleEvents (s : RunnerState) (now : Nat) (events : List CodexEvent) :
    RunnerState :=
  throttledUpdate { s with state := events.foldl (applyEvent now) s.state } now

/-- `killProc`: no-op if the process already exited; otherwise send SIGTERM
and arm the 2000 ms escalation timer that will send SIGKILL. -/
def killProcStep (s : RunnerState) (now : Nat) : RunnerState :=
  if s.procExited then s
  else { s with sigterms := s.sigterms + 1, killArms := s.killArms + 1,
                killTimer := some (now + 2000) }

/-- The final-status decision of the `proc.on("close")` handler: `aborted`
is kept; a non-zero, non-null exit code becomes `error` with the exit-code
message only if no more specific error was already captured; otherwise the
run is `done`. -/
def closeStatusUpdate (st : CodexRunState) (code : Option Int) :
    CodexRunState :=
  if st.status = .aborted then st
  else
    match code with
    | some n =>
      if n = 0 then { st with status := .done }
      else
        { st with
          status := .error,
          error := (some (st.error.getD ("codex exited with code " ++ toString n))) }
    | none => { st with status := .done }

/-- The tail of the `proc.on("close")` handler, after the parser flush has
been folded in: clear both timers, deregister the abort listener, decide the
final status, set `endedAt`, emit forcibly, resolve. -/
def closeFinish (s2 : RunnerState) (now : Nat) (code : Option Int) :
    RunnerState :=
  let s3 := { s2 with updateTimer := none, killTimer := none,
                      listenerActive := false }
  let s5 := { s3 with
    state := { closeStatusUpdate s3.state code with endedAt := some now },
    endedAtWrites := s3.endedAtWrites + 1 }
  { emitUpdate s5 now with resolved := true }

/-- The whole `proc.on("close")` handler: flush the parser, handle any
trailing events, then finish the run. -/
def procCloseStep (s : RunnerState) (now : Nat) (code : Option Int) :
    RunnerState :=
  let s0 := { s with procExited := true }
  let fl := CodexStreamParser.flush ⟨s0.parserBuf⟩
  let s1 := { s0 with parserBuf := fl.1.buffer }
  let s2 := if fl.2 = [] then s1 else handleEvents s1 now fl.2
  closeFinish s2 now code

/-- The reactive callbacks the Node event loop can deliver to the coordinator,
one at a time. -/
inductive Action where
  | stdoutData (chunk : String)
  | stderrData (chunk : String)
  | abortSignal
  | updateTimerFire
  | killTimerFire
  | procClose (code : Option Int)
  | procError (msg : String)
deriving Repr, DecidableEq

/-- One event-loop callback applied at wall-clock time `now`.  Each branch is
the corresponding handler in `runCodexAgent`. -/
def step (s : RunnerState) (now : Nat) : Action → RunnerState
  | .stdoutData chunk =>
    -- proc.stdout.on("data"): parser.feed then handleEvents
    let fed := CodexStreamParser.feed ⟨s.parserBuf⟩ chunk
    handleEvents { s with parserBuf := fed.1.buffer } now fed.2
  | .stderrData chunk =>
    -- proc.stderr.on("data"): split current chunk only, drop empty strings,
    -- push into the bounded tail, then throttledUpdate
    let lines := ((splitNl chunk.data).map String.mk).filter (fun l => l ≠ "")
    throttledUpdate
      { s with state :=
          { s.state with stderrTail :=
              (capSplice MAX_STDERR_LINES (s.state.stderrTail ++ lines)) } } now
  | .abortSignal =>
    -- signal "abort" listener, registered with `once: true`
    if s.listenerActive then
      let s0 := { s with signalFired := true, listenerActive := false,
                         abortHandled := true }
      let s1 := { s0 with
        state := { s0.state with status := .aborted, endedAt := some now },
        endedAtWrites := s0.endedAtWrites + 1 }
      emitUpdate (killProcStep s1 now) now
    else { s with signalFired := true }
  | .updateTimerFire =>
    -- the deferred-emission setTimeout callback
    emitUpdate { s with updateTimer := none, lastUpdateTime := now } now
  | .killTimerFire =>
    -- the kill-escalation setTimeout callback
    let s1 := { s with killTimer := none }
    if s1.procExited then s1 else { s1 with sigkills := s1.sigkills + 1 }
  | .procClose code =>
    -- proc.on("close")
    procCloseStep s now code
  | .procError msg =>
    -- proc.on("error"): spawn/runtime failure
    let s1 := { s with
      listenerActive := false,
      state := { s.state with
        status := .error,
        error := some msg,
        endedAt := some now },
      endedAtWrites := s.endedAtWrites + 1 }
    { emitUpdate s1 now with resolved := true }

/-- Which callbacks the Node runtime can actually deliver in a given state:
stream data and process close/error only before resolution (`close` fires
after both stdio streams end, and exactly one of close/error fires); an
`AbortSignal` aborts at most once; a `setTimeout` callback runs only while
scheduled and not before its fire time. -/
def enabled (s : RunnerState) (now : Nat) : Action → Bool
  | .stdoutData _ => !s.resolved
  | .stderrData _ => !s.resolved
  | .abortSignal => !s.signalFired
  | .updateTimerFire =>
    match s.updateTimer with
    | some t => decide (t ≤ now)
    | none => false
  | .killTimerFire =>
    match s.killTimer with
    | some t => decide (t ≤ now)
    | none => false
  | .procClose _ => !s.resolved && !s.procExited
  | .procError _ => !s.resolved && !s.procExited

/-- A timed action sequence is valid from state `s` when times are
nondecreasing and every action is enabled when it occurs. -/
def validFrom (s : RunnerState) (lastT : Nat) : List (Nat × Action) → Bool
  | [] => true
  | (t, a) :: rest =>
    decide (lastT ≤ t) && enabled s t a && validFrom (step s t a) t rest

def runTrace (s : RunnerState) : List (Nat × Action) → RunnerState
  | [] => s
  | (t, a) :: rest => runTrace (step s t a) rest

/-- The fresh run state built at the top of `runCodexAgent`. -/
def initCodexState (t0 : Nat) : CodexRunState :=
  { status := .running, threadId := none, lastAssistantMessage := "",
    commands := [], stderrTail := [], error := none, usage := none,
    startedAt := t0, endedAt := none }

/-- The coordinator's closure state right after `spawn` (a cancellation
signal was supplied, so the abort listener is registered). -/
def initRunner (t0 : Nat) : RunnerState :=
  { state := initCodexState t0, parserBuf := [], lastUpdateTime := 0,
    updateTimer := none, killTimer := none, listenerActive := true,
    signalFired := false, abortHandled := false, procExited := false,
    resolved := false, emissions := [], emitAfterResolve := 0,
    endedAtWrites := 0, killArms := 0, sigterms := 0, sigkills := 0 }

/-- The pre-spawn short-circuit of `runCodexAgent`: if the signal is already
aborted, the state is marked aborted/ended and returned immediately — no
process is spawned and `onUpdate` is never called, so the emission history
is empty. -/
def runPreSpawnAborted (t0 : Nat) : CodexRunState × List (Nat × CodexRunState) :=
  ({ initCodexState t0 with status := .aborted, endedAt := some t0 }, [])

/-! ### The qwen adapter's invocation list (`qwen-runner.ts`) -/

structure ToolUseInfo where
  id : String
  name : String
  input : Json

structure QwenToolCall where
  id : String
  name : String
  input : Json
  startedAt : Nat
  endedAt : Option Nat
  isError : Option Bool

structure QwenRunState where
  toolCalls : List QwenToolCall

def MAX_TOOL_CALLS : Nat := 80

/-- `addToolCall` from `qwen-runner.ts`: an already-known invocation id only
has its input refreshed; a new id is appended and the list is bounded to the
most recent `MAX_TOOL_CALLS` entries. -/
def addToolCall (state : QwenRunState) (tu : ToolUseInfo) (now : Nat) :
    QwenRunState :=
  if state.toolCalls.any (fun c => c.id == tu.id) then
    { state with toolCalls :=
        (updateFirst (fun c => c.id == tu.id)
          (fun c => { c with input := tu.input })
          state.toolCalls) }
  else
    { state with toolCalls :=
        (capSplice MAX_TOOL_CALLS
          (state.toolCalls ++ [{ id := tu.id, name := tu.name, input := tu.input,
                                 startedAt := now, endedAt := none,
                                 isError := none : QwenToolCall }])) }

/-- Scenario E: 90 sequential invocation-start events with distinct ids fed
through `addToolCall` against the 80-entry cap. -/
def scenarioEState : QwenRunState :=
  (List.range 90).foldl
    (fun st i => addToolCall st ⟨toString i, "tool", Json.null⟩ i) ⟨[]⟩

/-! ### Parser theorems -/

theorem feed_empty_chunk (p : CodexStreamParser) (hp : '\n' ∉ p.buffer) :
    p.feed "" = (p, []) := by
  unfold CodexStreamParser.feed
  have hdata : ("" : String).data = [] := rfl
  rw [hdata, List.append_nil, splitNl_of_no_nl p.buffer hp]
  rfl

/-- Feeding chunks one at a time is the same as feeding their concatenation
once, provided the starting buffer holds no newline (true of every reachable
parser state). -/
theorem feedAll_eq_feed_concat (cs : List String) :
    ∀ (p : CodexStreamParser), '\n' ∉ p.buffer →
      feedAll p cs = p.feed (cs.foldr (· ++ ·) "") := by
  induction cs with
  | nil =>
    intro p hp
    exact (feed_empty_chunk p hp).symm
  | cons c cs ih =>
    intro p hp
    show (let r1 := p.feed c
          let r2 := feedAll r1.1 cs
          ((r2.1, r1.2 ++ r2.2) : CodexStreamParser × List CodexEvent))
        = p.feed (c ++ cs.foldr (· ++ ·) "")
    have hbuf : '\n' ∉ (p.feed c).1.buffer := buffer_no_nl p c
    have h2 := feed_feed p c (cs.foldr (· ++ ·) "")
    simp only [ih (p.feed c).1 hbuf]
    exact Prod.ext h2.1 h2.2

/-! ### Run-state cap preservation -/

theorem applyEvent_commands_le (now : Nat) (st : CodexRunState) (e : CodexEvent)
    (h : st.commands.length ≤ MAX_COMMANDS) :
    (applyEvent now st e).commands.length ≤ MAX_COMMANDS := by
  cases e with
  | command_execution id cmd exitCode status =>
    simp only [applyEvent]
    split
    · simpa [updateFirst_length] using h
    · exact capSplice_length_le MAX_COMMANDS _
  | agent_message text c =>
    simp only [applyEvent]
    split <;> exact h
  | turn_completed u => cases u <;> exact h
  | thread_started tid => exact h
  | turn_started => exact h
  | reasoning text => exact h
  | error msg => exact h
  | raw_text text => exact h

theorem applyEvent_stderr_le (now : Nat) (st : CodexRunState) (e : CodexEvent)
    (h : st.stderrTail.length ≤ MAX_STDERR_LINES) :
    (applyEvent now st e).stderrTail.length ≤ MAX_STDERR_LINES := by
  cases e with
  | command_execution id cmd exitCode status =>
    simp only [applyEvent]
    split <;> exact h
  | agent_message text c =>
    simp only [applyEvent]
    split <;> exact h
  | turn_completed u => cases u <;> exact h
  | thread_started tid => exact h
  | turn_started => exact h
  | reasoning text => exact h
  | error msg => exact h
  | raw_text text => exact capSplice_length_le MAX_STDERR_LINES _

theorem foldl_applyEvent_commands_le (now : Nat) (events : List CodexEvent) :
    ∀ (st : CodexRunState), st.commands.length ≤ MAX_COMMANDS →
      (events.foldl (applyEvent now) st).commands.length ≤ MAX_COMMANDS := by
  induction events with
  | nil => intro st h; exact h
  | cons e es ih =>
    intro st h
    exact ih (applyEvent now st e) (applyEvent_commands_le now st e h)

theorem foldl_applyEvent_stderr_le (now : Nat) (events : List CodexEvent) :
    ∀ (st : CodexRunState), st.stderrTail.length ≤ MAX_STDERR_LINES →
      (events.foldl (applyEvent now) st).stderrTail.length ≤ MAX_STDERR_LINES := by
  induction events with
  | nil => intro st h; exact h
  | cons e es ih =>
    intro st h
    exact ih (applyEvent now st e) (applyEvent_stderr_le now st e h)

/-! ### Coordinator invariant -/

/-- The reachable-state invariant of the coordinator: listener/resolution
bookkeeping, the exact count of `endedAt` assignments, at most one kill
escalation with SIGKILL only after a SIGTERM, the two memory caps, and — for
runs resolved through process close — a nonempty emission history with no
emission after resolution. -/
def Inv (s : RunnerState) : Prop :=
  (s.listenerActive = true → s.abortHandled = false) ∧
  (s.resolved = true → s.listenerActive = false) ∧
  (s.procExited = true → s.resolved = true) ∧
  (s.resolved = true → s.procExited = true →
    s.updateTimer = none ∧ s.killTimer = none) ∧
  (s.resolved = true → s.procExited = true →
    s.emissions ≠ [] ∧ s.emitAfterResolve = 0) ∧
  (s.endedAtWrites =
    (if s.abortHandled then 1 else 0) + (if s.resolved then 1 else 0)) ∧
  (s.killArms ≤ 1) ∧
  (s.abortHandled = false → s.killArms = 0) ∧
  (s.sigterms = s.killArms) ∧
  (s.sigkills + (if s.killTimer.isSome then 1 else 0) ≤ s.killArms) ∧
  (s.state.commands.length ≤ MAX_COMMANDS) ∧
  (s.state.stderrTail.length ≤ MAX_STDERR_LINES) ∧
  (s.resolved = false → s.emitAfterResolve = 0)

theorem Inv_initRunner (t0 : Nat) : Inv (initRunner t0) := by
  unfold Inv initRunner initCodexState
  simp

theorem throttledUpdate_ghost (s : RunnerState) (now : Nat) :
    (throttledUpdate s now).state = s.state ∧
    (throttledUpdate s now).killTimer = s.killTimer ∧
    (throttledUpdate s now).listenerActive = s.listenerActive ∧
    (throttledUpdate s now).signalFired = s.signalFired ∧
    (throttledUpdate s now).abortHandled = s.abortHandled ∧
    (throttledUpdate s now).procExited = s.procExited ∧
    (throttledUpdate s now).resolved = s.resolved ∧
    (throttledUpdate s now).endedAtWrites = s.endedAtWrites ∧
    (throttledUpdate s now).killArms = s.killArms ∧
    (throttledUpdate s now).sigterms = s.sigterms ∧
    (throttledUpdate s now).sigkills = s.sigkills ∧
    (throttledUpdate s now).parserBuf = s.parserBuf ∧
    (s.resolved = false →
      (throttledUpdate s now).emitAfterResolve = s.emitAfterResolve) := by
  unfold throttledUpdate emitUpdate
  split
  · split <;> simp
  · simp

/-- `throttledUpdate` preserves the coordinator invariant before resolution
(which is the only time it runs). -/
theorem Inv_throttledUpdate (s : RunnerState) (now : Nat)
    (hres : s.resolved = false) (hI : Inv s) : Inv (throttledUpdate s now) := by
  obtain ⟨h1, h2, h3, h4, h5, h6, h7, h8, h9, h10, h11, h12, h13⟩ := hI
  have hnr : ¬s.resolved = true := by simp [hres]
  have hnp : ¬s.procExited = true := fun hp => hnr (h3 hp)
  unfold throttledUpdate emitUpdate
  split
  · split
    · exact ⟨h1, fun hr => absurd hr hnr, fun hp => absurd hp hnp,
        fun hr => absurd hr hnr, fun hr => absurd hr hnr, h6, h7, h8, h9, h10,
        h11, h12, fun _ => h13 hres⟩
    · exact ⟨h1, fun hr => absurd hr hnr, fun hp => absurd hp hnp,
        fun hr => absurd hr hnr, fun hr => absurd hr hnr, h6, h7, h8, h9, h10,
        h11, h12, fun _ => h13 hres⟩
  · refine ⟨h1, fun hr => absurd hr hnr, fun hp => absurd hp hnp,
      fun hr => absurd hr hnr, fun hr => absurd hr hnr, h6, h7, h8, h9, h10,
      h11, h12, fun _ => ?_⟩
    simp only [hres, if_false]
    exact h13 hres

/-- `handleEvents` preserves the coordinator invariant before resolution. -/
theorem Inv_handleEvents (s : RunnerState) (now : Nat) (evs : List CodexEvent)
    (hres : s.resolved = false) (hI : Inv s) : Inv (handleEvents s now evs) := by
  obtain ⟨h1, h2, h3, h4, h5, h6, h7, h8, h9, h10, h11, h12, h13⟩ := hI
  have hc := foldl_applyEvent_commands_le now evs s.state h11
  have hs := foldl_applyEvent_stderr_le now evs s.state h12
  exact Inv_throttledUpdate { s with state := evs.foldl (applyEvent now) s.state }
    now hres ⟨h1, h2, h3, h4, h5, h6, h7, h8, h9, h10, hc, hs, h13⟩

@[simp] theorem handleEvents_state (s : RunnerState) (now : Nat)
    (evs : List CodexEvent) :
    (handleEvents s now evs).state = evs.foldl (applyEvent now) s.state :=
  (throttledUpdate_ghost _ _).1

@[simp] theorem handleEvents_killTimer (s : RunnerState) (now : Nat)
    (evs : List CodexEvent) :
    (handleEvents s now evs).killTimer = s.killTimer :=
  (throttledUpdate_ghost _ _).2.1

@[simp] theorem handleEvents_listenerActive (s : RunnerState) (now : Nat)
    (evs : List CodexEvent) :
    (handleEvents s now evs).listenerActive = s.listenerActive :=
  (throttledUpdate_ghost _ _).2.2.1

@[simp] theorem handleEvents_abortHandled (s : RunnerState) (now : Nat)
    (evs : List CodexEvent) :
    (handleEvents s now evs).abortHandled = s.abortHandled :=
  (throttledUpdate_ghost _ _).2.2.2.2.1

@[simp] theorem handleEvents_procExited (s : RunnerState) (now : Nat)
    (evs : List CodexEvent) :
    (handleEvents s now evs).procExited = s.procExited :=
  (throttledUpdate_ghost _ _).2.2.2.2.2.1

@[simp] theorem handleEvents_resolved (s : RunnerState) (now : Nat)
    (evs : List CodexEvent) :
    (handleEvents s now evs).resolved = s.resolved :=
  (throttledUpdate_ghost _ _).2.2.2.2.2.2.1

@[simp] theorem handleEvents_endedAtWrites (s : RunnerState) (now : Nat)
    (evs : List CodexEvent) :
    (handleEvents s now evs).endedAtWrites = s.endedAtWrites :=
  (throttledUpdate_ghost _ _).2.2.2.2.2.2.2.1

@[simp] theorem handleEvents_killArms (s : RunnerState) (now : Nat)
    (evs : List CodexEvent) :
    (handleEvents s now evs).killArms = s.killArms :=
  (throttledUpdate_ghost _ _).2.2.2.2.2.2.2.2.1

@[simp] theorem handleEvents_sigterms (s : RunnerState) (now : Nat)
    (evs : List CodexEvent) :
    (handleEvents s now evs).sigterms = s.sigterms :=
  (throttledUpdate_ghost _ _).2.2.2.2.2.2.2.2.2.1

@[simp] theorem handleEvents_sigkills (s : RunnerState) (now : Nat)
    (evs : List CodexEvent) :
    (handleEvents s now evs).sigkills = s.sigkills :=
  (throttledUpdate_ghost _ _).2.2.2.2.2.2.2.2.2.2.1

theorem handleEvents_emitAfterResolve (s : RunnerState) (now : Nat)
    (evs : List CodexEvent) (h : s.resolved = false) :
    (handleEvents s now evs).emitAfterResolve = s.emitAfterResolve :=
  (throttledUpdate_ghost _ _).2.2.2.2.2.2.2.2.2.2.2.2 h

theorem closeStatusUpdate_commands (st : CodexRunState) (code : Option Int) :
    (closeStatusUpdate st code).commands = st.commands := by
  unfold closeStatusUpdate
  split
  · rfl
  · rcases code with _ | n
    · rfl
    · dsimp only
      split <;> rfl

theorem closeStatusUpdate_stderrTail (st : CodexRunState) (code : Option Int) :
    (closeStatusUpdate st code).stderrTail = st.stderrTail := by
  unfold closeStatusUpdate
  split
  · rfl
  · rcases code with _ | n
    · rfl
    · dsimp only
      split <;> rfl

/-- `closeFinish` establishes the invariant from the pre-resolution facts
about the state it receives. -/
theorem Inv_closeFinish (s2 : RunnerState) (now : Nat) (code : Option Int)
    (hres : s2.resolved = false)
    (h6 : s2.endedAtWrites = (if s2.abortHandled then 1 else 0))
    (h7 : s2.killArms ≤ 1)
    (h8 : s2.abortHandled = false → s2.killArms = 0)
    (h9 : s2.sigterms = s2.killArms)
    (h10 : s2.sigkills ≤ s2.killArms)
    (h11 : s2.state.commands.length ≤ MAX_COMMANDS)
    (h12 : s2.state.stderrTail.length ≤ MAX_STDERR_LINES)
    (h13 : s2.emitAfterResolve = 0) :
    Inv (closeFinish s2 now code) := by
  unfold closeFinish emitUpdate
  exact ⟨fun h => absurd h (by simp), fun _ => rfl, fun _ => rfl, fun _ _ => ⟨rfl, rfl⟩,
    fun _ _ => ⟨by simp, by simp [hres, h13]⟩, by simp [h6], h7, h8, h9,
    by simpa using h10,
    (by rw [closeStatusUpdate_commands]; exact h11 :
      (closeStatusUpdate s2.state code).commands.length ≤ MAX_COMMANDS),
    (by rw [closeStatusUpdate_stderrTail]; exact h12 :
      (closeStatusUpdate s2.state code).stderrTail.length ≤ MAX_STDERR_LINES),
    fun h => absurd h (by simp)⟩

/-- The coordinator invariant is preserved by every callback the runtime can
deliver. -/
theorem Inv_step (s : RunnerState) (now : Nat) (a : Action)
    (hI : Inv s) (hE : enabled s now a = true) : Inv (step s now a) := by
  obtain ⟨h1, h2, h3, h4, h5, h6, h7, h8, h9, h10, h11, h12, h13⟩ := hI
  cases a with
  | stdoutData chunk =>
    have hres : s.resolved = false := by
      simpa [enabled] using hE
    exact Inv_handleEvents _ now _ hres
      ⟨h1, h2, h3, h4, h5, h6, h7, h8, h9, h10, h11, h12, h13⟩
  | stderrData chunk =>
    have hres : s.resolved = false := by
      simpa [enabled] using hE
    have hs : (capSplice MAX_STDERR_LINES (s.state.stderrTail ++
        (((splitNl chunk.data).map String.mk).filter (fun l => l ≠ "")))).length
        ≤ MAX_STDERR_LINES := capSplice_length_le _ _
    exact Inv_throttledUpdate _ now hres
      ⟨h1, h2, h3, h4, h5, h6, h7, h8, h9, h10, h11, hs, h13⟩
  | abortSignal =>
    unfold step
    by_cases hl : s.listenerActive = true
    · rw [if_pos hl]
      have hab : s.abortHandled = false := h1 hl
      have hnr : ¬s.resolved = true := fun hr => by simp [h2 hr] at hl
      have hres : s.resolved = false := by
        cases hsr : s.resolved
        · rfl
        · exact absurd hsr hnr
      have hnp : ¬s.procExited = true := fun hp => hnr (h3 hp)
      have hpe : s.procExited = false := by
        cases hsp : s.procExited
        · rfl
        · exact absurd hsp hnp
      have hka : s.killArms = 0 := h8 hab
      have hsk : s.sigkills = 0 := by
        cases hk : s.killTimer.isSome <;> rw [hk] at h10 <;> simp at h10 <;> omega
      have hst : s.sigterms = 0 := by omega
      have hw : s.endedAtWrites = 0 := by rw [h6, hab, hres]; simp
      dsimp only
      simp only [killProcStep, emitUpdate, hpe, hres, Bool.false_eq_true,
        if_false, ite_false]
      refine ⟨fun h => absurd h (by simp), fun _ => rfl, fun h => absurd h (by simp),
        fun hr => absurd hr (by simp), fun hr => absurd hr (by simp), ?_, ?_,
        fun h => absurd h (by simp), ?_, ?_, h11, h12, fun _ => ?_⟩
      · simp [hw]
      · show s.killArms + 1 ≤ 1
        omega
      · show s.sigterms + 1 = s.killArms + 1
        omega
      · show s.sigkills + (if (some (now + 2000)).isSome = true then 1 else 0)
          ≤ s.killArms + 1
        simp
        omega
      · simpa using h13 hres
    · rw [if_neg hl]
      exact ⟨h1, h2, h3, h4, h5, h6, h7, h8, h9, h10, h11, h12, h13⟩
  | updateTimerFire =>
    have hut : s.updateTimer ≠ none := by
      intro hu
      simp [enabled, hu] at hE
    unfold step emitUpdate
    refine ⟨h1, h2, h3, fun hr hp => ⟨rfl, (h4 hr hp).2⟩,
      fun hr hp => absurd (h4 hr hp).1 hut, h6, h7, h8, h9, h10, h11, h12,
      fun hres => ?_⟩
    show s.emitAfterResolve + (if s.resolved = true then 1 else 0) = 0
    rw [hres, h13 hres]
    simp
  | killTimerFire =>
    have hkt : s.killTimer.isSome = true := by
      cases hk : s.killTimer
      · simp [enabled, hk] at hE
      · rfl
    rw [hkt] at h10
    simp only [if_pos] at h10
    unfold step
    by_cases hpe : s.procExited = true
    · rw [if_pos hpe]
      exact ⟨h1, h2, h3, fun hr hp => ⟨(h4 hr hp).1, rfl⟩, h5, h6, h7, h8, h9,
        by simpa using (by omega : s.sigkills ≤ s.killArms), h11, h12, h13⟩
    · rw [if_neg hpe]
      exact ⟨h1, h2, fun hp => absurd hp hpe,
        fun hr hp => absurd hp hpe, fun hr hp => absurd hp hpe, h6, h7, h8, h9,
        by simpa using (by omega : s.sigkills + 1 ≤ s.killArms), h11, h12, h13⟩
  | procClose code =>
    have hres : s.resolved = false := by
      have h := hE
      simp [enabled] at h
      exact h.1
    have h10' : s.sigkills ≤ s.killArms := by
      cases hk : s.killTimer.isSome <;> rw [hk] at h10 <;> simp at h10 <;> omega
    have h6' : s.endedAtWrites = (if s.abortHandled then 1 else 0) := by
      rw [h6, hres]; simp
    refine Inv_closeFinish _ now code ?_ ?_ ?_ ?_ ?_ ?_ ?_ ?_ ?_
    · split
      · exact hres
      · simpa using hres
    · split
      · simpa using h6'
      · simpa using h6'
    · split
      · exact h7
      · simpa using h7
    · split
      · exact h8
      · simpa using h8
    · split
      · exact h9
      · simpa using h9
    · split
      · exact h10'
      · simpa using h10'
    · split
      · exact h11
      · simp only [handleEvents_state]
        exact foldl_applyEvent_commands_le now _ _ h11
    · split
      · exact h12
      · simp only [handleEvents_state]
        exact foldl_applyEvent_stderr_le now _ _ h12
    · split
      · exact h13 hres
      · refine Eq.trans (handleEvents_emitAfterResolve _ _ _ ?_) (h13 hres)
        exact hres
  | procError msg =>
    have hres : s.resolved = false := by
      have h := hE
      simp [enabled] at h
      exact h.1
    have hnp : ¬s.procExited = true := by
      have h := hE
      simp [enabled] at h
      simp [h.2]
    unfold step emitUpdate
    dsimp only
    refine ⟨fun h => absurd h (by simp), fun _ => rfl, fun hp => absurd hp hnp,
      fun hr hp => absurd hp hnp, fun hr hp => absurd hp hnp, ?_, h7, h8, h9,
      h10, h11, h12, fun h => absurd h (by simp)⟩
    show s.endedAtWrites + 1 =
      (if s.abortHandled then 1 else 0) + (if (true : Bool) then 1 else 0)
    rw [h6, hres]
    simp

/-- The invariant holds at the end of every valid trace. -/
theorem Inv_runTrace (tr : List (Nat × Action)) :
    ∀ (s : RunnerState) (t0 : Nat), Inv s → validFrom s t0 tr = true →
      Inv (runTrace s tr) := by
  induction tr with
  | nil => intro s t0 hI _; exact hI
  | cons p rest ih =>
    intro s t0 hI hV
    obtain ⟨t, a⟩ := p
    simp only [validFrom, Bool.and_eq_true, decide_eq_true_eq] at hV
    exact ih (step s t a) t (Inv_step s t a hI hV.1.2) hV.2

/-! ### Step-level behavioral lemmas -/

theorem applyEvent_error (now : Nat) (st : CodexRunState) (msg : String) :
    (applyEvent now st (.error msg)).error = some msg := rfl

/-- With an empty (up to whitespace) parser buffer, the close handler is just
`closeFinish` on the exited state: the flush yields no events. -/
theorem procCloseStep_of_trimmed_buffer (s : RunnerState) (now : Nat)
    (code : Option Int) (hbuf : jsTrim (String.mk s.parserBuf) = "") :
    procCloseStep s now code =
      closeFinish { s with procExited := true, parserBuf := [] } now code := by
  unfold procCloseStep CodexStreamParser.flush
  dsimp only
  rw [hbuf]
  simp

theorem closeFinish_updateTimer (s2 : RunnerState) (now : Nat)
    (code : Option Int) : (closeFinish s2 now code).updateTimer = none := rfl

theorem closeFinish_killTimer (s2 : RunnerState) (now : Nat)
    (code : Option Int) : (closeFinish s2 now code).killTimer = none := rfl

theorem closeFinish_resolved (s2 : RunnerState) (now : Nat)
    (code : Option Int) : (closeFinish s2 now code).resolved = true := rfl

theorem closeFinish_emissions (s2 : RunnerState) (now : Nat)
    (code : Option Int) :
    (closeFinish s2 now code).emissions.length = s2.emissions.length + 1 := by
  unfold closeFinish emitUpdate
  simp

/-- The close handler keeps an `aborted` status and leaves the error field
untouched. -/
theorem closeFinish_of_aborted (s2 : RunnerState) (now : Nat)
    (code : Option Int) (h : s2.state.status = .aborted) :
    (closeFinish s2 now code).state.status = .aborted ∧
      (closeFinish s2 now code).state.error = s2.state.error := by
  unfold closeFinish closeStatusUpdate emitUpdate
  dsimp only
  rw [if_pos h]
  exact ⟨h, rfl⟩

/-- The close handler never overwrites an already-present error message: the
exit-code text only fills an empty field. -/
theorem closeFinish_error_preserved (s2 : RunnerState) (now : Nat)
    (code : Option Int) (m : String) (h : s2.state.error = some m) :
    (closeFinish s2 now code).state.error = some m := by
  unfold closeFinish closeStatusUpdate emitUpdate
  dsimp only
  by_cases habort : s2.state.status = .aborted
  · rw [if_pos habort]
    exact h
  · rw [if_neg habort]
    rcases code with _ | n
    · exact h
    · dsimp only
      by_cases hn : n = 0
      · rw [if_pos hn]
        exact h
      · rw [if_neg hn]
        show some (s2.state.error.getD _) = some m
        rw [h]
        rfl

/-- A null exit code (termination by signal) never takes the error branch:
the status becomes `done` and the error field is untouched. -/
theorem closeFinish_null_code (s2 : RunnerState) (now : Nat)
    (h : ¬s2.state.status = .aborted) :
    (closeFinish s2 now none).state.status = .done ∧
      (closeFinish s2 now none).state.error = s2.state.error := by
  unfold closeFinish closeStatusUpdate emitUpdate
  dsimp only
  rw [if_neg h]
  exact ⟨rfl, rfl⟩

/-- The effective abort handler: mark aborted, set `endedAt`, send SIGTERM
and arm the 2-second SIGKILL escalation timer, then emit immediately without
touching the throttle state. -/
theorem step_abort_effect (s : RunnerState) (now : Nat)
    (hl : s.listenerActive = true) (hpe : s.procExited = false) :
    (step s now .abortSignal).state.status = .aborted ∧
      (step s now .abortSignal).state.error = s.state.error ∧
      (step s now .abortSignal).sigterms = s.sigterms + 1 ∧
      (step s now .abortSignal).sigkills = s.sigkills ∧
      (step s now .abortSignal).killTimer = some (now + 2000) ∧
      (step s now .abortSignal).updateTimer = s.updateTimer ∧
      (step s now .abortSignal).emissions.length = s.emissions.length + 1 ∧
      (step s now .abortSignal).resolved = s.resolved := by
  unfold step killProcStep emitUpdate
  rw [if_pos hl]
  dsimp only
  simp [hpe]

/-- A cancellation signal delivered when the listener is no longer
registered changes nothing observable (only the ghost flag recording that
the signal fired). -/
theorem step_abort_noop (s : RunnerState) (now : Nat)
    (hl : s.listenerActive = false) :
    step s now .abortSignal = { s with signalFired := true } := by
  unfold step
  rw [if_neg (by simp [hl])]

/-- The kill-escalation timer callback: SIGKILL if and only if the process
has not exited; the timer is consumed either way. -/
theorem step_killTimerFire_effect (s : RunnerState) (now : Nat)
    (hpe : s.procExited = false) :
    (step s now .killTimerFire).sigkills = s.sigkills + 1 ∧
      (step s now .killTimerFire).killTimer = none := by
  simp only [step]
  rw [if_neg (by simp [hpe])]
  exact ⟨rfl, rfl⟩

/-- The kill-escalation timer can only fire while armed and at or after its
scheduled time. -/
theorem enabled_killTimerFire (s : RunnerState) (now : Nat)
    (h : enabled s now .killTimerFire = true) :
    ∃ t, s.killTimer = some t ∧ t ≤ now := by
  cases hk : s.killTimer with
  | none => simp [enabled, hk] at h
  | some t =>
    refine ⟨t, rfl, ?_⟩
    simpa [enabled, hk] using h

/-- The spawn-error handler: record the error message (overwriting any
previous one), resolve, emit — without clearing the deferred-emission
timer. -/
theorem step_procError_effect (s : RunnerState) (now : Nat) (msg : String) :
    (step s now (.procError msg)).state.status = .error ∧
      (step s now (.procError msg)).state.error = some msg ∧
      (step s now (.procError msg)).updateTimer = s.updateTimer ∧
      (step s now (.procError msg)).emissions.length = s.emissions.length + 1 ∧
      (step s now (.procError msg)).resolved = true := by
  unfold step emitUpdate
  dsimp only
  refine ⟨rfl, rfl, rfl, by simp, rfl⟩

theorem string_append_empty_right (s : String) : s ++ "" = s := by
  cases s with
  | mk data => exact congrArg String.mk (List.append_nil data)

/-! ### Claims -/

/-- C2: for every string `s` and every way of splitting `s` into contiguous
chunks `c1..cn` with `c1+...+cn = s`, feeding the chunks in order and then
flushing yields exactly the same event sequence as feeding `s` once and then
flushing. -/
theorem c2_chunked_feed_eq_whole (s : String) (chunks : List String)
    (h : chunks.foldr (· ++ ·) "" = s) :
    feedThenFlush chunks = feedThenFlush [s] := by
  unfold feedThenFlush
  rw [feedAll_eq_feed_concat chunks ⟨[]⟩ (by simp), h]
  have h1 : feedAll ⟨[]⟩ [s] =
      ((CodexStreamParser.feed ⟨[]⟩ s).1,
        (CodexStreamParser.feed ⟨[]⟩ s).2 ++ []) := rfl
  rw [h1]
  simp

/-- C2 witness: a concrete two-chunk split of "ab\n" produces the same
events as the whole string. -/
theorem c2_chunked_feed_eq_whole_witness :
    (["a", "b\n"].foldr (· ++ ·) "" = "ab\n") ∧
      feedThenFlush ["a", "b\n"] = feedThenFlush ["ab\n"] :=
  ⟨by decide, c2_chunked_feed_eq_whole "ab\n" ["a", "b\n"] (by decide)⟩

/-- C4 counterexample: the whitespace-only line "   " is not valid JSON, yet
feeding it followed by its newline produces no event at all — the line is
dropped without a raw event, and (more generally) raw events carry the
trimmed text, not the original line text. -/
theorem c4_whitespace_line_dropped_counterexample :
    jsonParse "   " = none ∧
      (CodexStreamParser.feed ⟨[]⟩ "   \n").2 = [] ∧
      (CodexStreamParser.feed ⟨[]⟩ " 42 \n").2 = [.raw_text "42"] := by
  refine ⟨rfl, by decide, by decide⟩

/-- C4 (amended): every complete line whose trimmed text is nonempty and
either fails JSON parsing or parses to a non-object yields exactly one raw
event carrying the trimmed line text; a line that trims to nothing yields no
event. -/
theorem c4_raw_event_for_unparsed_lines (line : List Char) :
    (jsTrim (String.mk line) ≠ "" →
      (jsonParse (jsTrim (String.mk line)) = none ∨
        ∃ j, jsonParse (jsTrim (String.mk line)) = some j ∧
          j.isObjLike = false) →
      lineToEvent line = some (.raw_text (jsTrim (String.mk line)))) ∧
    (jsTrim (String.mk line) = "" → lineToEvent line = none) := by
  constructor
  · intro hne hp
    unfold lineToEvent parseLine
    dsimp only
    rw [if_neg hne]
    rcases hp with hp | ⟨j, hj, hobj⟩
    · rw [hp]
    · rw [hj]
      simp [hobj]
  · intro he
    unfold lineToEvent
    dsimp only
    rw [if_pos he]

/-- C4 witness: the line "42" is valid JSON but not an object, and produces
exactly one raw event with its (trimmed) text. -/
theorem c4_raw_event_for_unparsed_lines_witness :
    jsTrim (String.mk "42".data) ≠ "" ∧
      jsonParse "42" = some (.num 42) ∧
      lineToEvent "42".data = some (.raw_text "42") :=
  ⟨by decide, rfl,
    (c4_raw_event_for_unparsed_lines "42".data).1 (by decide)
      (Or.inr ⟨.num 42, rfl, rfl⟩)⟩

/-- C1 counterexample: in a valid run where a structured error event arrives
on stdout, cancellation is then triggered, and the process finally closes
with exit code 0, the resolved state is `aborted` — but the error text
"boom" captured before cancellation is still present in the `error` field,
not discarded as the claim requires. -/
theorem c1_error_text_retained_counterexample :
    validFrom (initRunner 1000) 1000
      [(1000, .stdoutData "\x7b\"type\":\"error\",\"message\":\"boom\"\x7d\n"),
       (1001, .abortSignal), (1002, .procClose (some 0))] = true ∧
    (runTrace (initRunner 1000)
      [(1000, .stdoutData "\x7b\"type\":\"error\",\"message\":\"boom\"\x7d\n"),
       (1001, .abortSignal), (1002, .procClose (some 0))]).state.status
      = .aborted ∧
    (runTrace (initRunner 1000)
      [(1000, .stdoutData "\x7b\"type\":\"error\",\"message\":\"boom\"\x7d\n"),
       (1001, .abortSignal), (1002, .procClose (some 0))]).state.error
      = some "boom" :=
  ⟨by decide, by decide, by decide⟩

/-- C1 (amended): if cancellation is triggered before process exit, the
final status is `aborted` regardless of the eventual exit code — the abort
handler sets `aborted` and the close handler keeps it — but error text
captured before cancellation REMAINS visible in the `error` field (abort
does not clear it). -/
theorem c1_abort_precedence_amended :
    (∀ (s : RunnerState) (now : Nat), s.listenerActive = true →
      s.procExited = false →
      (step s now .abortSignal).state.status = .aborted ∧
      (step s now .abortSignal).state.error = s.state.error) ∧
    (∀ (s : RunnerState) (now : Nat) (code : Option Int),
      s.state.status = .aborted → jsTrim (String.mk s.parserBuf) = "" →
      (step s now (.procClose code)).state.status = .aborted ∧
      (step s now (.procClose code)).state.error = s.state.error) := by
  constructor
  · intro s now hl hpe
    have h := step_abort_effect s now hl hpe
    exact ⟨h.1, h.2.1⟩
  · intro s now code hstat hbuf
    show (procCloseStep s now code).state.status = .aborted ∧
      (procCloseStep s now code).state.error = s.state.error
    rw [procCloseStep_of_trimmed_buffer s now code hbuf]
    exact closeFinish_of_aborted _ now code hstat

/-- C1 witness: instantiating the amended claim on a freshly-spawned run
(abort step) and on an already-aborted state (close step with exit code 7). -/
theorem c1_abort_precedence_amended_witness :
    ((step (initRunner 1000) 1001 .abortSignal).state.status = .aborted ∧
      (step (initRunner 1000) 1001 .abortSignal).state.error
        = (initRunner 1000).state.error) ∧
    ((step (runTrace (initRunner 1000) [(1001, .abortSignal)]) 1002
        (.procClose (some 7))).state.status = .aborted ∧
      (step (runTrace (initRunner 1000) [(1001, .abortSignal)]) 1002
        (.procClose (some 7))).state.error
        = (runTrace (initRunner 1000) [(1001, .abortSignal)]).state.error) :=
  ⟨c1_abort_precedence_amended.1 (initRunner 1000) 1001 (by decide) (by decide),
   c1_abort_precedence_amended.2 (runTrace (initRunner 1000) [(1001, .abortSignal)])
     1002 (some 7) (by decide) (by decide)⟩

/-- C3 counterexample: a run whose cancellation signal is already triggered
before spawn resolves with a terminal `aborted` state but the progress
callback is never invoked — the emission history of the pre-spawn
short-circuit is empty, contradicting "invoked at least once ... including
runs where the cancellation signal was already triggered before spawn". -/
theorem c3_pre_spawn_abort_no_callback_counterexample :
    (runPreSpawnAborted 5).2 = [] ∧
      (runPreSpawnAborted 5).1.status = .aborted ∧
      (runPreSpawnAborted 5).1.endedAt = some 5 :=
  ⟨rfl, rfl, rfl⟩

/-- C3 (amended): for every run that spawns and terminates via process
close, the callback is invoked at least once and never after the promise
resolves; a run aborted before spawn resolves without any callback
invocation; and on the spawn-error path the pending deferred-emission timer
is not cleared, so a throttled emission scheduled earlier can still fire
after resolution. -/
theorem c3_callback_at_terminal_amended :
    (∀ (t0 lastT : Nat) (tr : List (Nat × Action)),
      validFrom (initRunner t0) lastT tr = true →
      (runTrace (initRunner t0) tr).resolved = true →
      (runTrace (initRunner t0) tr).procExited = true →
      (runTrace (initRunner t0) tr).emissions ≠ [] ∧
      (runTrace (initRunner t0) tr).emitAfterResolve = 0) ∧
    (∀ t0, (runPreSpawnAborted t0).2 = []) ∧
    (∀ (s : RunnerState) (now : Nat) (msg : String),
      (step s now (.procError msg)).updateTimer = s.updateTimer ∧
      (step s now (.procError msg)).resolved = true) := by
  refine ⟨?_, fun t0 => rfl, ?_⟩
  · intro t0 lastT tr hV hres hpe
    have hI := Inv_runTrace tr (initRunner t0) lastT (Inv_initRunner t0) hV
    exact hI.2.2.2.2.1 hres hpe
  · intro s now msg
    have h := step_procError_effect s now msg
    exact ⟨h.2.2.1, h.2.2.2.2⟩

/-- C3 witness: a run closing immediately with exit code 0 has a nonempty
emission history and no emissions after resolution. -/
theorem c3_callback_at_terminal_amended_witness :
    (runTrace (initRunner 1000) [(1000, .procClose (some 0))]).emissions ≠ [] ∧
      (runTrace (initRunner 1000)
        [(1000, .procClose (some 0))]).emitAfterResolve = 0 :=
  c3_callback_at_terminal_amended.1 1000 1000 [(1000, .procClose (some 0))]
    (by decide) (by decide) (by decide)

/-- C5 counterexample: in a valid run that is aborted and then observes
process close, `endedAt` is assigned twice — once by the abort handler and
once, unconditionally, by the close handler — contradicting "assigned
exactly once". -/
theorem c5_endedAt_written_twice_counterexample :
    validFrom (initRunner 1000) 1000
      [(1001, .abortSignal), (1002, .procClose (some 0))] = true ∧
    (runTrace (initRunner 1000)
      [(1001, .abortSignal), (1002, .procClose (some 0))]).endedAtWrites = 2 :=
  ⟨by decide, by decide⟩

/-- C5 (amended): `endedAt` is assigned at most twice per run — once by the
abort handler and once at the terminal transition — and exactly once for
runs that are never aborted; triggering cancellation once the listener is
deregistered (in particular after the run has resolved) has no observable
effect. -/
theorem c5_endedAt_writes_amended :
    (∀ (t0 lastT : Nat) (tr : List (Nat × Action)),
      validFrom (initRunner t0) lastT tr = true →
      (runTrace (initRunner t0) tr).endedAtWrites ≤ 2 ∧
      ((runTrace (initRunner t0) tr).abortHandled = false →
        (runTrace (initRunner t0) tr).endedAtWrites ≤ 1)) ∧
    (∀ (s : RunnerState) (now : Nat), s.listenerActive = false →
      step s now .abortSignal = { s with signalFired := true }) ∧
    (∀ (t0 lastT : Nat) (tr : List (Nat × Action)),
      validFrom (initRunner t0) lastT tr = true →
      (runTrace (initRunner t0) tr).resolved = true →
      ∀ t, step (runTrace (initRunner t0) tr) t .abortSignal
        = { runTrace (initRunner t0) tr with signalFired := true }) := by
  refine ⟨?_, fun s now hl => step_abort_noop s now hl, ?_⟩
  · intro t0 lastT tr hV
    have hI := Inv_runTrace tr (initRunner t0) lastT (Inv_initRunner t0) hV
    have h6 := hI.2.2.2.2.2.1
    constructor
    · split_ifs at h6 <;> omega
    · intro hab
      rw [hab] at h6
      simp at h6
      split_ifs at h6 <;> omega
  · intro t0 lastT tr hV hres t
    have hI := Inv_runTrace tr (initRunner t0) lastT (Inv_initRunner t0) hV
    exact step_abort_noop _ t (hI.2.1 hres)

/-- C5 witness: instantiating the amended claim on the abort-then-close
trace (two writes, within the bound) and on a resolved run receiving a late
abort. -/
theorem c5_endedAt_writes_amended_witness :
    (runTrace (initRunner 1000)
      [(1001, .abortSignal), (1002, .procClose (some 0))]).endedAtWrites ≤ 2 ∧
    step (runTrace (initRunner 1000) [(1000, .procClose (some 0))]) 2000
        .abortSignal
      = { runTrace (initRunner 1000) [(1000, .procClose (some 0))] with
          signalFired := true } :=
  ⟨(c5_endedAt_writes_amended.1 1000 1000
      [(1001, .abortSignal), (1002, .procClose (some 0))] (by decide)).1,
   c5_endedAt_writes_amended.2.2 1000 1000 [(1000, .procClose (some 0))]
     (by decide) (by decide) 2000⟩

/-- C6 counterexample: in a valid run whose stream carries two structured
error events, the resolved `error` field holds the SECOND message — a later
structured error event overwrites an earlier one, contradicting "set-once,
never overwritten once present". -/
theorem c6_error_overwritten_counterexample :
    validFrom (initRunner 1000) 1000
      [(1000, .stdoutData
        "\x7b\"type\":\"error\",\"message\":\"first\"\x7d\n\x7b\"type\":\"error\",\"message\":\"second\"\x7d\n")]
      = true ∧
    (runTrace (initRunner 1000)
      [(1000, .stdoutData
        "\x7b\"type\":\"error\",\"message\":\"first\"\x7d\n\x7b\"type\":\"error\",\"message\":\"second\"\x7d\n")]).state.error
      = some "second" :=
  ⟨by decide, by decide⟩

/-- C6 (amended): the `error` field is last-write-wins for structured stream
error events and for the spawn-error handler; only the exit-code fallback in
the close handler refrains from overwriting an already-present message. -/
theorem c6_error_last_write_amended :
    (∀ (now : Nat) (st : CodexRunState) (msg : String),
      (applyEvent now st (.error msg)).error = some msg) ∧
    (∀ (s : RunnerState) (now : Nat) (code : Option Int) (m : String),
      s.state.error = some m → jsTrim (String.mk s.parserBuf) = "" →
      (step s now (.procClose code)).state.error = some m) ∧
    (∀ (s : RunnerState) (now : Nat) (msg : String),
      (step s now (.procError msg)).state.error = some msg) := by
  refine ⟨fun now st msg => rfl, ?_, fun s now msg => (step_procError_effect s now msg).2.1⟩
  intro s now code m hm hbuf
  show (procCloseStep s now code).state.error = some m
  rw [procCloseStep_of_trimmed_buffer s now code hbuf]
  exact closeFinish_error_preserved _ now code m hm

/-- C6 witness: closing with a nonzero exit code does not overwrite the
error already captured from the stream. -/
theorem c6_error_last_write_amended_witness :
    (runTrace (initRunner 1000)
      [(1000, .stdoutData "\x7b\"type\":\"error\",\"message\":\"boom\"\x7d\n")]).state.error
      = some "boom" ∧
    (step (runTrace (initRunner 1000)
      [(1000, .stdoutData "\x7b\"type\":\"error\",\"message\":\"boom\"\x7d\n")])
      1002 (.procClose (some 3))).state.error = some "boom" :=
  ⟨by decide,
   c6_error_last_write_amended.2.1
     (runTrace (initRunner 1000)
       [(1000, .stdoutData "\x7b\"type\":\"error\",\"message\":\"boom\"\x7d\n")])
     1002 (some 3) "boom" (by decide) (by decide)⟩

set_option maxRecDepth 8000 in
/-- C7: after every event, the invocation list never exceeds its cap (80)
and the stderr tail never exceeds its cap (20); eviction drops the oldest
entries first so the retained entries are a suffix (the most recent); and in
particular 90 sequential invocation-start events with distinct ids against
the 80-entry cap leave exactly 80 entries with the first 10 absent. -/
theorem c7_bounded_invocations_and_stderr :
    (∀ (t0 lastT : Nat) (tr : List (Nat × Action)),
      validFrom (initRunner t0) lastT tr = true →
      (runTrace (initRunner t0) tr).state.commands.length ≤ MAX_COMMANDS ∧
      (runTrace (initRunner t0) tr).state.stderrTail.length
        ≤ MAX_STDERR_LINES) ∧
    (∀ (st : QwenRunState) (tu : ToolUseInfo) (now : Nat),
      st.toolCalls.length ≤ MAX_TOOL_CALLS →
      (addToolCall st tu now).toolCalls.length ≤ MAX_TOOL_CALLS) ∧
    (∀ (cap : Nat) (l : List String), (capSplice cap l).IsSuffix l) ∧
    (scenarioEState.toolCalls.length = 80 ∧
      scenarioEState.toolCalls.map (fun c => c.id) =
        ((List.range 90).drop 10).map toString ∧
      ∀ i < 10, toString i ∉ scenarioEState.toolCalls.map (fun c => c.id)) := by
  refine ⟨?_, ?_, fun cap l => capSplice_suffix cap l,
    by decide, by decide, by decide⟩
  · intro t0 lastT tr hV
    have hI := Inv_runTrace tr (initRunner t0) lastT (Inv_initRunner t0) hV
    exact ⟨hI.2.2.2.2.2.2.2.2.2.2.1, hI.2.2.2.2.2.2.2.2.2.2.2.1⟩
  · intro st tu now h
    simp only [addToolCall]
    split
    · simpa [updateFirst_length] using h
    · exact capSplice_length_le _ _

/-- C7 witness: concrete instances of each bound — a run trace with stderr
data, a single `addToolCall`, a concrete suffix, and the 90-event scenario's
length. -/
theorem c7_bounded_invocations_and_stderr_witness :
    (runTrace (initRunner 1000)
      [(1000, .stderrData "a\nb\n")]).state.stderrTail.length
      ≤ MAX_STDERR_LINES ∧
    (addToolCall ⟨[]⟩ ⟨"x", "tool", Json.null⟩ 0).toolCalls.length
      ≤ MAX_TOOL_CALLS ∧
    (capSplice 20 ["a", "b"]).IsSuffix ["a", "b"] ∧
    scenarioEState.toolCalls.length = 80 :=
  ⟨(c7_bounded_invocations_and_stderr.1 1000 1000
      [(1000, .stderrData "a\nb\n")] (by decide)).2,
   c7_bounded_invocations_and_stderr.2.1 ⟨[]⟩ ⟨"x", "tool", Json.null⟩ 0
     (by decide),
   c7_bounded_invocations_and_stderr.2.2.1 20 ["a", "b"],
   c7_bounded_invocations_and_stderr.2.2.2.1⟩

/-- C8: on cancellation during an active run the coordinator sends exactly
one graceful SIGTERM and arms one 2000 ms escalation timer; the escalation
callback sends SIGKILL only if the process has not exited, and only at or
after its scheduled time; process close cancels the escalation timer; and
over every valid run at most one escalation is ever armed. -/
theorem c8_kill_escalation :
    (∀ (s : RunnerState) (now : Nat), s.listenerActive = true →
      s.procExited = false →
      (step s now .abortSignal).sigterms = s.sigterms + 1 ∧
      (step s now .abortSignal).sigkills = s.sigkills ∧
      (step s now .abortSignal).killTimer = some (now + 2000)) ∧
    (∀ (s : RunnerState) (now : Nat), s.procExited = false →
      (step s now .killTimerFire).sigkills = s.sigkills + 1 ∧
      (step s now .killTimerFire).killTimer = none) ∧
    (∀ (s : RunnerState) (now : Nat),
      enabled s now .killTimerFire = true →
      ∃ t, s.killTimer = some t ∧ t ≤ now) ∧
    (∀ (s : RunnerState) (now : Nat) (code : Option Int),
      (step s now (.procClose code)).killTimer = none) ∧
    (∀ (t0 lastT : Nat) (tr : List (Nat × Action)),
      validFrom (initRunner t0) lastT tr = true →
      (runTrace (initRunner t0) tr).killArms ≤ 1 ∧
      (runTrace (initRunner t0) tr).sigterms ≤ 1 ∧
      (runTrace (initRunner t0) tr).sigkills ≤ 1) := by
  refine ⟨?_, fun s now hpe => step_killTimerFire_effect s now hpe,
    fun s now h => enabled_killTimerFire s now h,
    fun s now code => closeFinish_killTimer _ now code, ?_⟩
  · intro s now hl hpe
    have h := step_abort_effect s now hl hpe
    exact ⟨h.2.2.1, h.2.2.2.1, h.2.2.2.2.1⟩
  · intro t0 lastT tr hV
    have hI := Inv_runTrace tr (initRunner t0) lastT (Inv_initRunner t0) hV
    have h7 := hI.2.2.2.2.2.2.1
    have h9 := hI.2.2.2.2.2.2.2.2.1
    have h10 := hI.2.2.2.2.2.2.2.2.2.1
    refine ⟨h7, by omega, ?_⟩
    split_ifs at h10 <;> omega

/-- C8 witness: a concrete abort arms the 2-second timer once; the armed
timer is enabled only at its scheduled time; and a full abort-then-close
trace performs at most one escalation. -/
theorem c8_kill_escalation_witness :
    ((step (initRunner 1000) 1001 .abortSignal).sigterms
        = (initRunner 1000).sigterms + 1 ∧
      (step (initRunner 1000) 1001 .abortSignal).sigkills
        = (initRunner 1000).sigkills ∧
      (step (initRunner 1000) 1001 .abortSignal).killTimer = some 3001) ∧
    (∃ t, (runTrace (initRunner 1000) [(1001, .abortSignal)]).killTimer
        = some t ∧ t ≤ 3001) ∧
    (runTrace (initRunner 1000)
      [(1001, .abortSignal), (1002, .procClose (some 0))]).killArms ≤ 1 :=
  ⟨c8_kill_escalation.1 (initRunner 1000) 1001 (by decide) (by decide),
   c8_kill_escalation.2.2.1 (runTrace (initRunner 1000) [(1001, .abortSignal)])
     3001 (by decide),
   (c8_kill_escalation.2.2.2.2 1000 1000
     [(1001, .abortSignal), (1002, .procClose (some 0))] (by decide)).1⟩

/-- C9 counterexample: in a valid run, an emission throttled at t=1010
schedules a deferred emission for t=1150; the forced abort emission at
t=1020 does NOT cancel it, and the deferred emission fires at t=1150 —
after the forced one — contradicting "cancels any pending deferred
emission". -/
theorem c9_deferred_fires_after_abort_counterexample :
    validFrom (initRunner 1000) 1000
      [(1000, .stdoutData "x\n"), (1010, .stdoutData "y\n"),
       (1020, .abortSignal), (1150, .updateTimerFire),
       (1200, .procClose (some 0))] = true ∧
    (runTrace (initRunner 1000)
      [(1000, .stdoutData "x\n"), (1010, .stdoutData "y\n"),
       (1020, .abortSignal), (1150, .updateTimerFire),
       (1200, .procClose (some 0))]).emissions.map Prod.fst
      = [1000, 1020, 1150, 1200] :=
  ⟨by decide, by decide⟩

/-- C9 (amended): the terminal close emission bypasses the throttle, emits
immediately and cancels any pending deferred emission; the abort and
spawn-error forced emissions bypass the throttle and emit immediately but
do NOT cancel a pending deferred emission, which may still fire
afterwards. -/
theorem c9_forced_emission_amended :
    (∀ (s : RunnerState) (now : Nat) (code : Option Int),
      jsTrim (String.mk s.parserBuf) = "" →
      (step s now (.procClose code)).updateTimer = none ∧
      (step s now (.procClose code)).emissions.length
        = s.emissions.length + 1) ∧
    (∀ (s : RunnerState) (now : Nat), s.listenerActive = true →
      s.procExited = false →
      (step s now .abortSignal).updateTimer = s.updateTimer ∧
      (step s now .abortSignal).emissions.length = s.emissions.length + 1) ∧
    (∀ (s : RunnerState) (now : Nat) (msg : String),
      (step s now (.procError msg)).updateTimer = s.updateTimer ∧
      (step s now (.procError msg)).emissions.length
        = s.emissions.length + 1) := by
  refine ⟨?_, ?_, ?_⟩
  · intro s now code hbuf
    show (procCloseStep s now code).updateTimer = none ∧
      (procCloseStep s now code).emissions.length = s.emissions.length + 1
    rw [procCloseStep_of_trimmed_buffer s now code hbuf]
    exact ⟨closeFinish_updateTimer _ now code, closeFinish_emissions _ now code⟩
  · intro s now hl hpe
    have h := step_abort_effect s now hl hpe
    exact ⟨h.2.2.2.2.2.1, h.2.2.2.2.2.2.1⟩
  · intro s now msg
    have h := step_procError_effect s now msg
    exact ⟨h.2.2.1, h.2.2.2.1⟩

/-- C9 witness: concrete instances — close cancels the deferred timer and
emits; abort emits immediately while leaving the deferred timer armed. -/
theorem c9_forced_emission_amended_witness :
    ((step (initRunner 1000) 1002 (.procClose (some 0))).updateTimer = none ∧
      (step (initRunner 1000) 1002 (.procClose (some 0))).emissions.length
        = (initRunner 1000).emissions.length + 1) ∧
    ((step (initRunner 1000) 1001 .abortSignal).updateTimer
        = (initRunner 1000).updateTimer ∧
      (step (initRunner 1000) 1001 .abortSignal).emissions.length
        = (initRunner 1000).emissions.length + 1) :=
  ⟨c9_forced_emission_amended.1 (initRunner 1000) 1002 (some 0) (by decide),
   c9_forced_emission_amended.2.1 (initRunner 1000) 1001 (by decide) (by decide)⟩

/-- C10: a run that was not aborted and whose close event reports a null
exit code (termination by signal) resolves with status `done` and no
exit-code error message, because the error branch requires the exit code to
be both non-zero and non-null. -/
theorem c10_null_exit_code_is_done (s : RunnerState) (now : Nat)
    (hstat : ¬s.state.status = .aborted)
    (hbuf : jsTrim (String.mk s.parserBuf) = "") :
    (step s now (.procClose none)).state.status = .done ∧
      (step s now (.procClose none)).state.error = s.state.error := by
  show (procCloseStep s now none).state.status = .done ∧
    (procCloseStep s now none).state.error = s.state.error
  rw [procCloseStep_of_trimmed_buffer s now none hbuf]
  exact closeFinish_null_code _ now hstat

/-- C10 witness: a fresh run closing with a null exit code ends `done` with
an untouched (absent) error field. -/
theorem c10_null_exit_code_is_done_witness :
    (step (initRunner 1000) 1005 (.procClose none)).state.status = .done ∧
      (step (initRunner 1000) 1005 (.procClose none)).state.error
        = (initRunner 1000).state.error :=
  c10_null_exit_code_is_done (initRunner 1000) 1005 (by decide) (by decide)

end AgentRun
